import Mathlib

/-!
Shallow embedding of `character.py` from the
`character-animation-customtkinter-python` repository.

The module defines three Python classes:
* `AnimationFrame` — an (image filename, display duration) pair;
* `Animation` — a named, non-empty list of frames (`__init__` raises
  `ValueError` on an empty list);
* `Character` — a label widget holding a registry mapping animation names
  to frame lists, a current position, and either a bounding `frame` or a
  `grid_cells` matrix for layout resolution.

The embedding keeps the observable state of a `Character` (its registry,
position, layout references, active-animation bookkeeping) and models the
GUI side effects (widget placement, `after`-timer scheduling) by their
control flow: placement is a no-op on the modelled state, and playback is
rendered as the list of `(delay, frame-index)` events that the code hands
to the `after` timer of the toolkit.  Python exceptions become `Except String`
(for constructors, lookups and `_update_position`) or an `Option String`
error channel alongside the mutated state (for `_register_animations`,
whose partial mutation survives the raise).  Python `int` is `Int`; the
widget types (`CTkFrame` and so on) are an arbitrary type parameter `W`,
since the code only ever consults the shape of `grid_cells`, never the
widgets themselves.
-/

namespace CharacterAnim

/-- `AnimationFrame`: an image filename together with the duration (in
milliseconds) for which the frame is displayed.  `duration` defaults to
250 in the Python constructor. -/
structure AnimationFrame where
  filename : String
  duration : Int
  deriving Repr, DecidableEq

instance : Inhabited AnimationFrame := ⟨⟨"", 250⟩⟩

/-- The record stored for a successfully constructed `Animation`. -/
structure Animation where
  name : String
  frames : List AnimationFrame
  deriving Repr, DecidableEq

/-- `Animation.__init__`: raises `ValueError` when the frame list is
empty (`if not frames`), otherwise stores the name and the frame list. -/
def Animation.init (name : String) (frames : List AnimationFrame) :
    Except String Animation :=
  if frames.isEmpty then
    .error ("ValueError: The animation " ++ name ++ " cannot be empty.")
  else
    .ok { name := name, frames := frames }

/-- The observable state of a `Character` widget.  `W` stands for the
toolkit widget type (`ctk.CTkFrame`): the code never inspects a widget,
only the list structure of `grid_cells`, so `W` is kept abstract. -/
structure Character (W : Type) where
  animations : List (String × List AnimationFrame)
  position : Int × Int
  current_frame_index : Nat
  images_path : String
  size : Nat
  frame : Option W
  grid_cells : Option (List (List W))
  active_animation_name : Option String

/-- `Character._register_animations`: iterates over the given animations,
raising `ValueError` on a name already present in the registry and
otherwise inserting the (name, frames) binding.  The Python method
mutates `self.animations` in place, so the bindings inserted before a
duplicate is hit survive the raise: the embedding therefore returns the
updated registry state together with an optional error. -/
def register_animations {W : Type} (c : Character W) (anims : List Animation) :
    Character W × Option String :=
  match anims with
  | [] => (c, none)
  | a :: rest =>
    if (c.animations.lookup a.name).isSome then
      (c, some ("ValueError: Duplicate animation " ++ a.name ++ "."))
    else
      register_animations
        { c with animations := c.animations ++ [(a.name, a.frames)] } rest

/-- `Character.__init__` (the parts that touch modelled state): stores the
position, paths, size and layout references, starts with an empty
registry, and — when the `animations` argument is truthy, i.e. neither
`None` nor the empty list — runs `_register_animations`, whose
`ValueError` propagates out of the constructor.  Note that the
constructor performs no validation of `frame` / `grid_cells`. -/
def Character.init {W : Type} (animations : Option (List Animation))
    (position : Int × Int) (images_path : String) (size : Nat)
    (frame : Option W) (grid_cells : Option (List (List W))) :
    Except String (Character W) :=
  let c : Character W :=
    { animations := []
      position := position
      current_frame_index := 0
      images_path := images_path
      size := size
      frame := frame
      grid_cells := grid_cells
      active_animation_name := none }
  match animations with
  | none => .ok c
  | some l =>
    if l.isEmpty then .ok c
    else
      match register_animations c l with
      | (c2, none) => .ok c2
      | (_, some e) => .error e

/-- `len(self.grid_cells[0]) if rows else 0`: the column count used by the
bounds check of `set_position`, taken from the first row only. -/
def grid_cols {W : Type} (g : List (List W)) : Nat :=
  match g with
  | [] => 0
  | r :: _ => r.length

/-- `Character._update_position`: in grid mode it returns early when the
stored position misses a cell (note the early-return check is per-row,
`len(self.grid_cells[row])`) and otherwise places the wrapper over the
target cell; in frame mode it places the wrapper inside the frame; with
neither layout reference it raises `RuntimeError`.  Placement itself is a
toolkit side effect with no modelled state, so both grid branches return
`()`. -/
def update_position {W : Type} (c : Character W) : Except String Unit :=
  match c.grid_cells with
  | some g =>
    let row := c.position.1
    let col := c.position.2
    if row < 0 ∨ col < 0 ∨ (g.length : Int) ≤ row
        ∨ ((((g.get? row.toNat).map List.length).getD 0 : Nat) : Int) ≤ col then
      .ok ()
    else
      .ok ()
  | none =>
    match c.frame with
    | some _ => .ok ()
    | none => .error "RuntimeError: No frame or grid_cells was defined."

/-- The tail of `Character.set_position` once the grid bounds check (if
any) has passed: `self.position = position`, then `_update_position()`
— whose `RuntimeError` propagates after the assignment — then
`return True`. -/
def set_position_apply {W : Type} (c : Character W) (position : Int × Int) :
    Character W × Except String Bool :=
  let c2 := { c with position := position }
  match update_position c2 with
  | .ok _ => (c2, .ok true)
  | .error e => (c2, .error e)

/-- `Character.set_position`: in grid mode, computes `rows` and `cols`
(the latter from the first row only, 0 when there are no rows) and
returns `False` without touching the position when the requested
`(row, col)` fails `0 <= row < rows and 0 <= col < cols`; otherwise — and
always, in non-grid mode — stores the position, runs `_update_position`
and returns `True`. -/
def set_position {W : Type} (c : Character W) (position : Int × Int) :
    Character W × Except String Bool :=
  match c.grid_cells with
  | some g =>
    let row := position.1
    let col := position.2
    let rows := g.length
    let cols := grid_cols g
    if ¬ (0 ≤ row ∧ row < (rows : Int) ∧ 0 ≤ col ∧ col < (cols : Int)) then
      (c, .ok false)
    else
      set_position_apply c position
  | none => set_position_apply c position

/-- `Character.move`: adds the offset to the current position
componentwise and delegates to `set_position`. -/
def move {W : Type} (c : Character W) (offset : Int × Int) :
    Character W × Except String Bool :=
  let dx := offset.1
  let dy := offset.2
  let x := c.position.1
  let y := c.position.2
  set_position c (x + dx, y + dy)

/-- `Character.get_animation_frames`: dictionary lookup, raising
`KeyError` on an unregistered name. -/
def get_animation_frames {W : Type} (c : Character W) (name : String) :
    Except String (List AnimationFrame) :=
  match c.animations.lookup name with
  | some fr => .ok fr
  | none => .error ("KeyError: " ++ name)

/-- The `after`-timer events produced by the executions of the nested
`run` closure of `play_animation`, starting from the execution that
displays index `i`; the list argument is `frames[i:]`, the frames still
to be shown.  `run(i)` displays frame `i` and, when `i` is not the last
index (`frame_index < len(frames) - 1`, i.e. the remaining tail is
non-empty), schedules `run(i+1)` with delay `frames[i].duration`.  Each
event is the `(delay, frame_index)` pair handed to `after`. -/
def run_events : List AnimationFrame → Nat → List (Int × Nat)
  | [], _ => []
  | f :: rest, i =>
    if rest.isEmpty then [] else (f.duration, i + 1) :: run_events rest (i + 1)

/-- `Character.play_animation`: records the active animation name, looks
the name up in the registry (`KeyError` when absent), and schedules the
first `run` call with delay `frames[0].duration` (an `IndexError` when
the frame list is empty); the remaining events come from the `run`
executions.  Returns the updated character together with the full list of
`(delay, frame_index)` events handed to `after`. -/
def play_animation {W : Type} (c : Character W) (name : String) :
    Except String (Character W × List (Int × Nat)) :=
  let c2 := { c with active_animation_name := some name }
  match c2.animations.lookup name with
  | none => .error ("KeyError: " ++ name)
  | some frames =>
    match frames with
    | [] => .error "IndexError: list index out of range"
    | f :: _ => .ok (c2, (f.duration, 0) :: run_events frames 0)

/-! ## Helper lemmas -/

theorem lookup_append_of_some {α β : Type} [BEq α] {l₁ : List (α × β)}
    (l₂ : List (α × β)) {k : α} {v : β} (h : List.lookup k l₁ = some v) :
    List.lookup k (l₁ ++ l₂) = some v := by
  induction l₁ with
  | nil => simp [List.lookup] at h
  | cons p rest ih =>
    obtain ⟨a, b⟩ := p
    rw [List.cons_append, List.lookup_cons]
    rw [List.lookup_cons] at h
    cases hk : k == a with
    | true => simpa [hk] using h
    | false =>
      simp only [hk] at h ⊢
      exact ih h

theorem lookup_append_of_none {α β : Type} [BEq α] {l₁ : List (α × β)}
    (l₂ : List (α × β)) {k : α} (h : List.lookup k l₁ = none) :
    List.lookup k (l₁ ++ l₂) = List.lookup k l₂ := by
  induction l₁ with
  | nil => simp
  | cons p rest ih =>
    obtain ⟨a, b⟩ := p
    rw [List.cons_append, List.lookup_cons]
    rw [List.lookup_cons] at h
    cases hk : k == a with
    | true => simp [hk] at h
    | false =>
      simp only [hk] at h ⊢
      exact ih h

/-- `_register_animations` only ever appends to the registry: the
resulting registry is the old one followed by some tail of new
bindings. -/
theorem register_animations_appends {W : Type} (anims : List Animation)
    (c : Character W) :
    ∃ tail, (register_animations c anims).1.animations = c.animations ++ tail := by
  induction anims generalizing c with
  | nil => exact ⟨[], by simp [register_animations]⟩
  | cons a rest ih =>
    by_cases hdup : (List.lookup a.name c.animations).isSome
    · exact ⟨[], by simp [register_animations, hdup]⟩
    · obtain ⟨tail, htail⟩ :=
        ih { c with animations := c.animations ++ [(a.name, a.frames)] }
      exact ⟨(a.name, a.frames) :: tail, by
        simp only [register_animations, hdup, if_false]
        simpa [List.append_assoc] using htail⟩

/-- Bindings already present in the registry survive any later
registration attempt (successful or raising). -/
theorem register_animations_preserves {W : Type} (anims : List Animation)
    (c : Character W) {n : String} {fr : List AnimationFrame}
    (h : List.lookup n c.animations = some fr) :
    List.lookup n (register_animations c anims).1.animations = some fr := by
  obtain ⟨tail, htail⟩ := register_animations_appends anims c
  rw [htail]
  exact lookup_append_of_some tail h

/-- In grid mode `_update_position` never raises: both the early-return
path and the placement path succeed. -/
theorem update_position_of_grid {W : Type} (c : Character W)
    {g : List (List W)} (hg : c.grid_cells = some g) :
    update_position c = .ok () := by
  simp only [update_position, hg]
  split <;> rfl

/-- In frame mode `_update_position` places the wrapper and never
raises. -/
theorem update_position_of_frame {W : Type} (c : Character W) {f : W}
    (hg : c.grid_cells = none) (hf : c.frame = some f) :
    update_position c = .ok () := by
  simp [update_position, hg, hf]

/-- Closed form of `set_position` in grid mode. -/
theorem set_position_of_grid {W : Type} (c : Character W)
    {g : List (List W)} (hg : c.grid_cells = some g) (pos : Int × Int) :
    set_position c pos =
      if 0 ≤ pos.1 ∧ pos.1 < (g.length : Int) ∧ 0 ≤ pos.2 ∧ pos.2 < (grid_cols g : Int) then
        ({ c with position := pos }, .ok true)
      else
        (c, .ok false) := by
  obtain ⟨an, p, cfi, ip, sz, fr, gc, aan⟩ := c
  simp only at hg
  subst hg
  have hup : update_position
      ({ animations := an, position := pos, current_frame_index := cfi,
         images_path := ip, size := sz, frame := fr, grid_cells := some g,
         active_animation_name := aan } : Character W) = .ok () :=
    update_position_of_grid _ rfl
  by_cases hb : 0 ≤ pos.1 ∧ pos.1 < (g.length : Int) ∧ 0 ≤ pos.2 ∧ pos.2 < (grid_cols g : Int)
  · simp [set_position, hb, set_position_apply, hup]
  · simp [set_position, hb]

/-- Closed form of `set_position` in frame mode. -/
theorem set_position_of_frame {W : Type} (c : Character W) {f : W}
    (hg : c.grid_cells = none) (hf : c.frame = some f) (pos : Int × Int) :
    set_position c pos = ({ c with position := pos }, .ok true) := by
  obtain ⟨an, p, cfi, ip, sz, fr, gc, aan⟩ := c
  simp only at hg hf
  subst hg
  subst hf
  have hup : update_position
      ({ animations := an, position := pos, current_frame_index := cfi,
         images_path := ip, size := sz, frame := some f, grid_cells := none,
         active_animation_name := aan } : Character W) = .ok () :=
    update_position_of_frame _ rfl rfl
  simp [set_position, set_position_apply, hup]

/-- Sample characters used by the witnesses. -/
def mkChar {W : Type} (frame : Option W) (grid_cells : Option (List (List W))) :
    Character W :=
  { animations := []
    position := (0, 0)
    current_frame_index := 0
    images_path := "./assets/images/"
    size := 100
    frame := frame
    grid_cells := grid_cells
    active_animation_name := none }

/-! ## Claims about the position model -/

/-- C1: for a character in grid mode, `set_position (row, col)` returns
`False` and leaves the whole character state (in particular the stored
position) unchanged when `(row, col)` falls outside the grid bounds
`0 <= row < rows`, `0 <= col < cols`; when it is within bounds it stores
`(row, col)` and returns `True`. -/
theorem C1_grid_set_position_bounds {W : Type} (c : Character W)
    (g : List (List W)) (hg : c.grid_cells = some g) (pos : Int × Int) :
    (¬ (0 ≤ pos.1 ∧ pos.1 < (g.length : Int) ∧ 0 ≤ pos.2 ∧ pos.2 < (grid_cols g : Int)) →
      set_position c pos = (c, .ok false)) ∧
    ((0 ≤ pos.1 ∧ pos.1 < (g.length : Int) ∧ 0 ≤ pos.2 ∧ pos.2 < (grid_cols g : Int)) →
      (set_position c pos).1.position = pos ∧ (set_position c pos).2 = .ok true) := by
  constructor
  · intro hb
    rw [set_position_of_grid c hg, if_neg hb]
  · intro hb
    rw [set_position_of_grid c hg, if_pos hb]
    exact ⟨rfl, rfl⟩

def gridChar2 : Character Unit := mkChar none (some [[(), ()], [(), ()]])

theorem C1_grid_set_position_bounds_witness :
    set_position gridChar2 (2, 0) = (gridChar2, .ok false) ∧
    ((set_position gridChar2 (1, 1)).1.position = (1, 1) ∧
      (set_position gridChar2 (1, 1)).2 = .ok true) :=
  ⟨(C1_grid_set_position_bounds gridChar2 _ rfl (2, 0)).1 (by decide),
   (C1_grid_set_position_bounds gridChar2 _ rfl (1, 1)).2 (by decide)⟩

/-- C4: `move (dx, dy)` adds the offset componentwise to the current
position and behaves exactly as `set_position (x + dx, y + dy)` — the
same result state (accepted position, or rejected with the position
unchanged) and the same boolean. -/
theorem C4_move_is_offset_set_position {W : Type} (c : Character W) (dx dy : Int) :
    move c (dx, dy) = set_position c (c.position.1 + dx, c.position.2 + dy) := rfl

/-- C8: in frame mode (a `frame`, no `grid_cells`) no bounds check is
applied: `set_position` accepts every position — negative or arbitrarily
large — stores it, and returns `True`. -/
theorem C8_frame_mode_unchecked {W : Type} (c : Character W) (f : W)
    (hg : c.grid_cells = none) (hf : c.frame = some f) (pos : Int × Int) :
    set_position c pos = ({ c with position := pos }, .ok true) :=
  set_position_of_frame c hg hf pos

def frameChar : Character Unit := mkChar (some ()) none

theorem C8_frame_mode_unchecked_witness :
    set_position frameChar (-5, 999) = ({ frameChar with position := (-5, 999) }, .ok true) :=
  C8_frame_mode_unchecked frameChar () rfl rfl (-5, 999)

/-- C9: the grid-mode bounds check takes its column count from the first
row only: for any (possibly ragged) grid, `set_position (row, col)` is
accepted — position stored, `True` returned — exactly when
`0 <= row < len(grid)` and `0 <= col < len(grid[0])`, regardless of the
length of row `row`; and on a grid with zero rows every `set_position`
and every `move` returns `False` and leaves the character unchanged. -/
theorem C9_ragged_grid_first_row_bounds {W : Type} (c : Character W)
    (g : List (List W)) (hg : c.grid_cells = some g) (row col : Int) :
    ((0 ≤ row ∧ row < (g.length : Int) ∧ 0 ≤ col ∧ col < (grid_cols g : Int)) →
      set_position c (row, col) = ({ c with position := (row, col) }, .ok true)) ∧
    (¬ (0 ≤ row ∧ row < (g.length : Int) ∧ 0 ≤ col ∧ col < (grid_cols g : Int)) →
      set_position c (row, col) = (c, .ok false)) ∧
    (g = [] → set_position c (row, col) = (c, .ok false) ∧
      ∀ off : Int × Int, move c off = (c, .ok false)) := by
  refine ⟨fun hb => ?_, fun hb => ?_, fun hnil => ?_⟩
  · rw [set_position_of_grid c hg, if_pos hb]
  · rw [set_position_of_grid c hg, if_neg hb]
  · subst hnil
    have hrej : ∀ p : Int × Int, set_position c p = (c, .ok false) := by
      intro p
      rw [set_position_of_grid c hg]
      have : ¬ (0 ≤ p.1 ∧ p.1 < (([] : List (List W)).length : Int) ∧
          0 ≤ p.2 ∧ p.2 < (grid_cols ([] : List (List W)) : Int)) := by
        simp only [List.length_nil, grid_cols]
        omega
      rw [if_neg this]
    refine ⟨hrej _, fun off => ?_⟩
    show set_position c (c.position.1 + off.1, c.position.2 + off.2) = (c, .ok false)
    exact hrej _

def raggedChar : Character Unit := mkChar none (some [[(), ()], [()]])

def emptyGridChar : Character Unit := mkChar none (some ([] : List (List Unit)))

theorem C9_ragged_grid_first_row_bounds_witness :
    set_position raggedChar (1, 1) = ({ raggedChar with position := (1, 1) }, .ok true) ∧
    set_position emptyGridChar (0, 0) = (emptyGridChar, .ok false) ∧
    move emptyGridChar (1, 1) = (emptyGridChar, .ok false) :=
  ⟨(C9_ragged_grid_first_row_bounds raggedChar _ rfl 1 1).1 (by decide),
   ((C9_ragged_grid_first_row_bounds emptyGridChar _ rfl 0 0).2.2 rfl).1,
   ((C9_ragged_grid_first_row_bounds emptyGridChar _ rfl 0 0).2.2 rfl).2 (1, 1)⟩

/-! ## Claims about construction and the animation registry -/

def sampleFrame : AnimationFrame := { filename := "idle1.png", duration := 250 }

def walkFrame : AnimationFrame := { filename := "walk1.png", duration := 300 }

def walkAnim : Animation := { name := "walk", frames := [walkFrame] }

def idleAnim : Animation := { name := "idle", frames := [sampleFrame] }

/-- C2: constructing an `Animation` from an empty frame list raises
`ValueError`; construction from a non-empty list succeeds and stores
exactly the given name and frame list, so every successfully constructed
`Animation` holds at least one frame. -/
theorem C2_animation_nonempty (name : String) (frames : List AnimationFrame) :
    (frames = [] → Animation.init name frames =
      .error ("ValueError: The animation " ++ name ++ " cannot be empty.")) ∧
    (frames ≠ [] → Animation.init name frames = .ok { name := name, frames := frames }) ∧
    (∀ a : Animation, Animation.init name frames = .ok a →
      a.name = name ∧ a.frames = frames ∧ a.frames ≠ []) := by
  refine ⟨fun h => ?_, fun h => ?_, fun a ha => ?_⟩
  · subst h
    rfl
  · simp [Animation.init, h]
  · cases frames with
    | nil => simp [Animation.init] at ha
    | cons f rest =>
      have hok : Animation.init name (f :: rest) = .ok ⟨name, f :: rest⟩ := by
        simp [Animation.init]
      rw [hok] at ha
      injection ha with ha2
      subst ha2
      exact ⟨rfl, rfl, by simp⟩

theorem C2_animation_nonempty_witness :
    Animation.init "walk" [] =
      .error ("ValueError: The animation " ++ "walk" ++ " cannot be empty.") ∧
    Animation.init "walk" [walkFrame] = .ok { name := "walk", frames := [walkFrame] } :=
  ⟨(C2_animation_nonempty "walk" []).1 rfl,
   (C2_animation_nonempty "walk" [walkFrame]).2.1 (by simp)⟩

/-- C3 counterexample: `Character.__init__` performs no validation of
`frame` / `grid_cells` at all — constructing with neither of them, and
with both of them, succeeds — refuting the claim that construction
raises whenever neither or both are provided. -/
theorem C3_counterexample_init_succeeds :
    Character.init (W := Unit) none (0, 0) "./assets/images/" 100 none none =
      .ok (mkChar none none) ∧
    Character.init (W := Unit) none (0, 0) "./assets/images/" 100 (some ())
        (some [[()]]) = .ok (mkChar (some ()) (some [[()]])) :=
  ⟨rfl, rfl⟩

/-- C3 amended: the exactly-one-of-{frame, grid_cells} requirement is not
enforced at construction — `Character.__init__` succeeds whatever the two
arguments are (provided animation registration succeeds).  It is enforced
only when positioning is applied: `_update_position` — and hence
`set_position`, after it has already stored the new position — raises
`RuntimeError` when neither `frame` nor `grid_cells` is set, while with
both set grid mode silently takes precedence and nothing raises. -/
theorem C3_mode_checked_on_positioning {W : Type} (pos : Int × Int) (ip : String)
    (sz : Nat) (fr : Option W) (gc : Option (List (List W))) (c : Character W) :
    (Character.init none pos ip sz fr gc).isOk = true ∧
    (c.frame = none → c.grid_cells = none →
      update_position c = .error "RuntimeError: No frame or grid_cells was defined." ∧
      (set_position c pos).2 = .error "RuntimeError: No frame or grid_cells was defined." ∧
      (set_position c pos).1.position = pos) ∧
    (∀ g2, c.grid_cells = some g2 → update_position c = .ok ()) := by
  refine ⟨rfl, fun hf hgc => ?_, fun g2 hg2 => update_position_of_grid c hg2⟩
  obtain ⟨an, p, cfi, ipc, szc, frc, gcc, aan⟩ := c
  simp only at hf hgc
  subst hf
  subst hgc
  refine ⟨rfl, ?_, ?_⟩ <;>
    simp [set_position, set_position_apply, update_position]

def noModeChar : Character Unit := mkChar none none

def bothModeChar : Character Unit := mkChar (some ()) (some [[()]])

theorem C3_mode_checked_on_positioning_witness :
    (Character.init (W := Unit) none (1, 2) "p" 50 none none).isOk = true ∧
    update_position noModeChar =
      .error "RuntimeError: No frame or grid_cells was defined." ∧
    (set_position noModeChar (3, 4)).2 =
      .error "RuntimeError: No frame or grid_cells was defined." ∧
    (set_position noModeChar (3, 4)).1.position = (3, 4) ∧
    update_position bothModeChar = .ok () :=
  ⟨(C3_mode_checked_on_positioning (W := Unit) (1, 2) "p" 50 none none noModeChar).1,
   ((C3_mode_checked_on_positioning (W := Unit) (3, 4) "p" 50 none none noModeChar).2.1
      rfl rfl).1,
   ((C3_mode_checked_on_positioning (W := Unit) (3, 4) "p" 50 none none noModeChar).2.1
      rfl rfl).2.1,
   ((C3_mode_checked_on_positioning (W := Unit) (3, 4) "p" 50 none none noModeChar).2.1
      rfl rfl).2.2,
   (C3_mode_checked_on_positioning (W := Unit) (3, 4) "p" 50 none none bothModeChar).2.2
      [[()]] rfl⟩

def charWithIdle : Character Unit :=
  { mkChar (some ()) none with animations := [("idle", [sampleFrame])] }

/-- C5: animation names are unique within the registry: registering an
animation whose name is already present raises `ValueError` and changes
nothing, and a binding once registered is never overwritten by any later
sequence of registrations — each name keeps the frames of the animation
first registered under it. -/
theorem C5_registry_names_unique {W : Type} (c : Character W) (a : Animation)
    (rest : List Animation) (anims : List Animation) (n : String)
    (fr : List AnimationFrame) :
    ((List.lookup a.name c.animations).isSome = true →
      register_animations c (a :: rest) =
        (c, some ("ValueError: Duplicate animation " ++ a.name ++ "."))) ∧
    (List.lookup n c.animations = some fr →
      List.lookup n (register_animations c anims).1.animations = some fr) := by
  constructor
  · intro hdup
    simp [register_animations, hdup]
  · exact register_animations_preserves anims c

theorem C5_registry_names_unique_witness :
    register_animations charWithIdle [idleAnim] =
      (charWithIdle, some ("ValueError: Duplicate animation " ++ "idle" ++ ".")) ∧
    List.lookup "idle" (register_animations charWithIdle [walkAnim]).1.animations =
      some [sampleFrame] :=
  ⟨(C5_registry_names_unique charWithIdle idleAnim [] [] "idle" [sampleFrame]).1 rfl,
   (C5_registry_names_unique charWithIdle idleAnim [] [walkAnim] "idle"
      [sampleFrame]).2 rfl⟩

/-- C10: registration / lookup round-trip — after a character registers
an animation (directly or through the constructor) whose name is not
otherwise present, `get_animation_frames` on that name returns exactly
its frame list. -/
theorem C10_register_lookup_round_trip {W : Type} (c : Character W) (a : Animation)
    (h : List.lookup a.name c.animations = none) :
    get_animation_frames (register_animations c [a]).1 a.name = .ok a.frames ∧
    (∀ (pos : Int × Int) (ip : String) (sz : Nat) (fr : Option W)
        (gc : Option (List (List W))) (c2 : Character W),
      Character.init (some [a]) pos ip sz fr gc = .ok c2 →
      get_animation_frames c2 a.name = .ok a.frames) := by
  constructor
  · have h1 : (register_animations c [a]).1.animations =
        c.animations ++ [(a.name, a.frames)] := by
      simp [register_animations, h]
    rw [get_animation_frames, h1, lookup_append_of_none _ h]
    simp [List.lookup_cons]
  · intro pos ip sz fr gc c2 hinit
    have hinit2 : Character.init (some [a]) pos ip sz fr gc =
        .ok ({ animations := [(a.name, a.frames)], position := pos,
               current_frame_index := 0, images_path := ip, size := sz,
               frame := fr, grid_cells := gc,
               active_animation_name := none } : Character W) := by
      simp [Character.init, register_animations]
    rw [hinit2] at hinit
    injection hinit with h2
    subst h2
    simp [get_animation_frames, List.lookup_cons]

theorem C10_register_lookup_round_trip_witness :
    get_animation_frames (register_animations (mkChar (W := Unit) (some ()) none)
      [walkAnim]).1 "walk" = .ok [walkFrame] ∧
    get_animation_frames
      ({ animations := [("walk", [walkFrame])], position := ((0 : Int), (0 : Int)),
         current_frame_index := 0, images_path := "p", size := 100,
         frame := some (), grid_cells := none,
         active_animation_name := none } : Character Unit) "walk" = .ok [walkFrame] :=
  ⟨(C10_register_lookup_round_trip (mkChar (W := Unit) (some ()) none) walkAnim rfl).1,
   (C10_register_lookup_round_trip (mkChar (W := Unit) (some ()) none) walkAnim rfl).2
      (0, 0) "p" 100 (some ()) none _ rfl⟩

/-! ## Claims about playback and frame immutability -/

/-- `set_position` never touches the animation registry, whichever branch
it takes. -/
theorem set_position_fst_animations {W : Type} (c : Character W) (p : Int × Int) :
    (set_position c p).1.animations = c.animations := by
  have happ : (set_position_apply c p).1.animations = c.animations := by
    simp only [set_position_apply]
    split <;> rfl
  cases hg : c.grid_cells with
  | none =>
    simp only [set_position, hg]
    exact happ
  | some g =>
    simp only [set_position, hg]
    split
    · rfl
    · exact happ

def idleChar : Character Unit :=
  { mkChar (some ()) none with animations := [("idle", [sampleFrame, walkFrame])] }

/-- C7: `AnimationFrame` is an immutable value and no `Character`
operation rewrites frame data: `set_position` and `move` leave the
registry untouched, `_register_animations` only appends new bindings —
every existing (name, frames) binding survives verbatim, in order — and
`play_animation` returns a character whose registry is unchanged. -/
theorem C7_operations_preserve_frames {W : Type} (c : Character W)
    (p off : Int × Int) (anims : List Animation) (name : String) :
    (set_position c p).1.animations = c.animations ∧
    (move c off).1.animations = c.animations ∧
    (∃ tail, (register_animations c anims).1.animations = c.animations ++ tail) ∧
    (∀ (c2 : Character W) (evs : List (Int × Nat)),
      play_animation c name = .ok (c2, evs) → c2.animations = c.animations) := by
  refine ⟨set_position_fst_animations c p, set_position_fst_animations c _,
    register_animations_appends anims c, fun c2 evs h => ?_⟩
  simp only [play_animation] at h
  cases hl : List.lookup name c.animations with
  | none =>
    simp only [hl] at h
    exact Except.noConfusion h
  | some frames =>
    simp only [hl] at h
    cases frames with
    | nil => simp at h
    | cons f restf =>
      simp only at h
      injection h with h2
      have h3 : ({ c with active_animation_name := some name } : Character W) = c2 :=
        congrArg Prod.fst h2
      rw [← h3]

theorem C7_operations_preserve_frames_witness :
    (set_position idleChar (1, 2)).1.animations = idleChar.animations ∧
    (move idleChar (3, 4)).1.animations = idleChar.animations ∧
    ({ idleChar with active_animation_name := some "idle" } : Character Unit).animations =
      idleChar.animations :=
  ⟨(C7_operations_preserve_frames idleChar (1, 2) (3, 4) [] "idle").1,
   (C7_operations_preserve_frames idleChar (1, 2) (3, 4) [] "idle").2.1,
   (C7_operations_preserve_frames idleChar (1, 2) (3, 4) [] "idle").2.2.2 _ _ rfl⟩

/-- One-step unfolding of `run_events` on a non-empty frame list. -/
theorem run_events_cons (f : AnimationFrame) (rest : List AnimationFrame) (i : Nat) :
    run_events (f :: rest) i =
      if rest.isEmpty then [] else (f.duration, i + 1) :: run_events rest (i + 1) := rfl

/-- The frame indices scheduled by the `run` executions starting at index
`i` (with `frames[i:]` still to show) are exactly `i+1, ..., n-1`. -/
theorem run_events_snd (l : List AnimationFrame) (i : Nat) :
    (run_events l i).map Prod.snd = List.range' (i + 1) (l.length - 1) := by
  induction l generalizing i with
  | nil => simp [run_events]
  | cons f rest ih =>
    rw [run_events_cons]
    cases rest with
    | nil => simp
    | cons f2 rest2 =>
      simp [ih, List.range'_succ]

/-- The delays carried by the `run`-scheduled events are the durations of
all but the last of the frames still to show. -/
theorem run_events_fst (l : List AnimationFrame) (i : Nat) :
    (run_events l i).map Prod.fst = l.dropLast.map AnimationFrame.duration := by
  induction l generalizing i with
  | nil => simp [run_events]
  | cons f rest ih =>
    rw [run_events_cons]
    cases rest with
    | nil => simp
    | cons f2 rest2 =>
      simp [ih, List.dropLast_cons₂]

/-- C6: `play_animation` on a registered, non-empty animation schedules
its frames strictly in list order — the scheduled indices are exactly
`0, 1, ..., len(frames) - 1`, one image swap per timer tick, with no
looping — and each frame is displayed for its own duration: the delay
before the first swap is `frames[0].duration` and the delay between the
swap to frame `k` and the swap to frame `k+1` is `frames[k].duration`
(the last frame is never followed by another event). -/
theorem C6_play_animation_schedule {W : Type} (c : Character W) (name : String)
    (frames : List AnimationFrame)
    (h : List.lookup name c.animations = some frames) (hne : frames ≠ []) :
    ∃ evs, play_animation c name =
        .ok ({ c with active_animation_name := some name }, evs) ∧
      evs.map Prod.snd = List.range frames.length ∧
      evs.map Prod.fst =
        frames.headI.duration :: (frames.dropLast.map AnimationFrame.duration) := by
  cases frames with
  | nil => exact absurd rfl hne
  | cons f rest =>
    refine ⟨(f.duration, 0) :: run_events (f :: rest) 0, ?_, ?_, ?_⟩
    · simp [play_animation, h]
    · simp [run_events_snd, List.range_eq_range', List.range'_succ]
    · simp [run_events_fst]

theorem C6_play_animation_schedule_witness :
    ∃ evs, play_animation idleChar "idle" =
        .ok ({ idleChar with active_animation_name := some "idle" }, evs) ∧
      evs.map Prod.snd = List.range ([sampleFrame, walkFrame] : List AnimationFrame).length ∧
      evs.map Prod.fst =
        ([sampleFrame, walkFrame] : List AnimationFrame).headI.duration ::
          (([sampleFrame, walkFrame] : List AnimationFrame).dropLast.map
            AnimationFrame.duration) :=
  C6_play_animation_schedule idleChar "idle" [sampleFrame, walkFrame] rfl (by simp)

end CharacterAnim
